import Mathlib

/-!
Verification of the hospital back-office identity-resolution core
(patients service, registration linker, access guards) against its
natural-language specification.

The definitions below are a shallow embedding of the TypeScript source:

* `getLinkedPatients` / `getLinkedPatientIds` / `resolvePatientIds` embed
  `PatientsService.getLinkedPatients` / `getLinkedPatientIds` /
  `resolvePatientIds` (the 2-pass bounded closure, "IdentityResolver").
* `patientAccessGuardStrict` and `patientAccessGuardAggregate` embed the
  PATIENT-role branch of the two divergent `patientAccessGuard`
  middlewares (the strict variant and the smart-linking variant in
  `src/middleware/patientAuth.ts`).  The staff allow-list branch of the
  middleware unconditionally calls `next()` and is not modelled; all
  claims about the guards quantify over PATIENT-role callers.
* `register` embeds `AuthService.register`; `createPatient` embeds
  `PatientsService.create` ("RegistrationLinker").  Credential hashing,
  JWT issuance, refresh-token storage and the fire-and-forget welcome
  e-mail are external collaborators (spec section 1) and are not part of
  the store; database-generated values (row ids, generated UHIDs, clock
  readings) are passed in as explicit oracle arguments.
* `getPrescriptions`, `getBills`, `getLabResults` embed the aggregation
  facade of `PatientsService`.

JavaScript truthiness on strings (`""` is falsy) and on nullable fields
is modelled explicitly by the `strTruthy` / `optStrTruthy` / `jsOrStr` /
`jsOrOptStr` helpers, and Prisma queries (`findMany` = filter,
`findFirst` / `findUnique` = `List.find?`, `orderBy` = stable insertion
sort on `createdAt`) are modelled over an explicit list-backed store.
Demographic columns that no claim inspects (address, blood group, id
proofs, ...) are omitted from the record types.
-/

namespace HospitalCore

/-- JavaScript truthiness of a string: the empty string is falsy. -/
def strTruthy (s : String) : Bool := s != ""

/-- JavaScript truthiness of a nullable string column. -/
def optStrTruthy : Option String → Bool
  | none => false
  | some s => s != ""

/-- JavaScript `a || b` where `a` is a nullable string and the result is
a string (used for `med.name || med.medicineName || default`). -/
def jsOrStr (a : Option String) (b : String) : String :=
  match a with
  | none => b
  | some s => if s = "" then b else s

/-- JavaScript `a || b` on two nullable strings (used for
`mr.notes || mr.diagnosis` and `existingPatient.email || input.email`). -/
def jsOrOptStr (a b : Option String) : Option String :=
  match a with
  | none => b
  | some s => if s = "" then b else some s

/-- Roles of the `UserRole` Prisma enum. -/
inductive Role where
  | PATIENT
  | ADMIN
  | DOCTOR
  | RECEPTIONIST
  | PHARMACIST
  | LAB_TECHNICIAN
deriving DecidableEq, Repr

/-- Row of the `users` table (an Account): authentication identity.
Credential hash and status are collaborator concerns and not modelled. -/
structure User where
  id : String
  email : String
  role : Role
deriving DecidableEq, Repr

/-- Row of the `staff` table (created by the non-PATIENT branch of
`AuthService.register`). -/
structure StaffRec where
  userId : String
  firstName : String
  lastName : String
  phone : Option String
  specialization : Option String
deriving DecidableEq, Repr

/-- Row of the `patients` table (an Identity record): `uhid` is the
primary key, `phone` is a required column, `email` is nullable,
`userId` is the nullable link to an Account.  Creation time is modelled
as a natural number. -/
structure Patient where
  uhid : String
  userId : Option String
  firstName : String
  lastName : String
  phone : String
  email : Option String
  createdAt : Nat
deriving DecidableEq, Repr

/-- Medicine entry inside a prescription payload: the legacy shape uses
`medicineName`, the canonical shape uses `name`. -/
structure Med where
  name : Option String
  medicineName : Option String
deriving DecidableEq, Repr

/-- Row of the `prescriptions` table (standalone prescription). -/
structure PrescriptionRec where
  id : String
  patientId : String
  notes : Option String
  medicines : List Med
  createdAt : Nat
deriving DecidableEq, Repr

/-- Row of the `medical_records` table (clinical visit): may embed a
prescription list either directly or inside the `vitalSigns` JSON blob. -/
structure MedicalRecord where
  id : String
  patientId : String
  diagnosis : Option String
  treatment : Option String
  notes : Option String
  prescriptions : Option (List Med)
  vitalSignsPrescriptions : Option (List Med)
  createdAt : Nat
deriving DecidableEq, Repr

/-- Row of the `bills` table. -/
structure Bill where
  id : String
  patientId : String
  createdAt : Nat
deriving DecidableEq, Repr

/-- Row of the `lab_test_orders` table. -/
structure LabOrder where
  id : String
  patientId : String
  createdAt : Nat
deriving DecidableEq, Repr

/-- The list-backed relational store behind the Prisma client. -/
structure Store where
  users : List User
  staff : List StaffRec
  patients : List Patient
  prescriptions : List PrescriptionRec
  medicalRecords : List MedicalRecord
  bills : List Bill
  labOrders : List LabOrder
deriving DecidableEq, Repr

/-- Stable insertion of `x` in front of the first element whose key is
not larger (descending order), matching the stable JavaScript
`sort((a, b) => b.createdAt - a.createdAt)`. -/
def insertDescBy (key : α → Nat) (x : α) : List α → List α
  | [] => [x]
  | y :: ys => if key y ≤ key x then x :: y :: ys else y :: insertDescBy key x ys

/-- Stable descending insertion sort by a natural-number key. -/
def sortDescBy (key : α → Nat) : List α → List α
  | [] => []
  | x :: xs => insertDescBy key x (sortDescBy key xs)

/-- Stable ascending insertion, for Prisma `orderBy: asc`. -/
def insertAscBy (key : α → Nat) (x : α) : List α → List α
  | [] => [x]
  | y :: ys => if key x ≤ key y then x :: y :: ys else y :: insertAscBy key x ys

/-- Stable ascending insertion sort by a natural-number key. -/
def sortAscBy (key : α → Nat) : List α → List α
  | [] => []
  | x :: xs => insertAscBy key x (sortAscBy key xs)

/-- Deduplication keeping first occurrences, as `Array.from(new Set(xs))`
does in JavaScript. -/
def jsDedupAux (seen : List String) : List String → List String
  | [] => []
  | x :: xs => if seen.contains x then jsDedupAux seen xs else x :: jsDedupAux (x :: seen) xs

/-- Deduplication keeping first occurrences. -/
def jsDedup (l : List String) : List String := jsDedupAux [] l

/-- Pass-1 predicate of `PatientsService.getLinkedPatients`: rows whose
phone equals the starting phone, or (when the starting record has a
truthy email) whose email equals the starting email. -/
def pass1Pred (start : Patient) (p : Patient) : Bool :=
  p.phone == start.phone || (optStrTruthy start.email && p.email == start.email)

/-- Pass 1 of the bounded closure: every row matching the contact data
of the starting record. -/
def pass1 (db : List Patient) (start : Patient) : List Patient :=
  db.filter (pass1Pred start)

/-- The truthy phone values collected from a list of rows (`if (p.phone)
phones.add(p.phone)` over the rows, resp. the phone criteria pushed by
the smart-linking guard). -/
def truthyPhones (l : List Patient) : List String :=
  (l.filter (fun p => p.phone != "")).map Patient.phone

/-- The truthy email values collected from a list of rows (`if (p.email)
emails.add(p.email)` over the rows, resp. the email criteria pushed by
the smart-linking guard). -/
def truthyEmails (l : List Patient) : List String :=
  l.filterMap (fun p => p.email.bind (fun e => if e = "" then none else some e))

/-- Prisma `OR` of phone and email criteria: the phone of the row is one of
the collected phones, or its email is one of the collected emails. -/
def matchesContact (phones emails : List String) (p : Patient) : Bool :=
  phones.contains p.phone ||
    (match p.email with
     | some e => emails.contains e
     | none => false)

/-- Embedding of `PatientsService.getLinkedPatients`: the bounded 2-pass
closure.  Pass 1 collects rows matching the starting phone/email; the
truthy phones and emails of pass 1 become the pass-2 criteria; with no
criteria the starting record alone is returned, otherwise pass 2 returns
every row matching any collected phone or email, ordered by creation
time ascending. -/
def getLinkedPatients (db : List Patient) (start : Patient) : List Patient :=
  if (truthyPhones (pass1 db start)).isEmpty && (truthyEmails (pass1 db start)).isEmpty then
    [start]
  else
    sortAscBy Patient.createdAt
      (db.filter (matchesContact (truthyPhones (pass1 db start)) (truthyEmails (pass1 db start))))

/-- Embedding of `PatientsService.getLinkedPatientIds`: distinct UHIDs of
the closure members, first occurrences kept. -/
def getLinkedPatientIds (db : List Patient) (start : Patient) : List String :=
  jsDedup ((getLinkedPatients db start).map Patient.uhid)

/-- Embedding of `PatientsService.resolvePatientIds`: look the UHID up;
an unknown UHID resolves to the singleton list, a known one to the UHIDs
of its bounded closure. -/
def resolvePatientIds (db : List Patient) (uhid : String) : List String :=
  match db.find? (fun p => p.uhid == uhid) with
  | none => [uhid]
  | some patient => getLinkedPatientIds db patient

/-- Prisma query `patient.findMany({ where: { userId } })` used by both
guards to fetch the records directly linked to the caller account. -/
def findUserPatients (db : List Patient) (callerUserId : String) : List Patient :=
  db.filter (fun p => p.userId == some callerUserId)

/-- Embedding of the PATIENT branch of the strict `patientAccessGuard`:
deny on a missing target parameter or a caller with no linked record,
otherwise allow exactly when the target UHID is one of the records
directly linked to the caller account. -/
def patientAccessGuardStrict (db : List Patient) (callerUserId target : String) : Bool :=
  if target = "" then false
  else if (findUserPatients db callerUserId).isEmpty then false
  else (findUserPatients db callerUserId).any (fun p => p.uhid == target)

/-- Embedding of the PATIENT branch of the smart-linking
`patientAccessGuard` (src/middleware/patientAuth.ts): allow on a direct
UHID match; otherwise collect the truthy phones and emails of the
records linked to the caller and allow exactly when some row with the
target UHID matches one of them. -/
def patientAccessGuardAggregate (db : List Patient) (callerUserId target : String) : Bool :=
  if target = "" then false
  else if (findUserPatients db callerUserId).isEmpty then false
  else if (findUserPatients db callerUserId).any (fun p => p.uhid == target) then true
  else if (truthyPhones (findUserPatients db callerUserId)).isEmpty &&
      (truthyEmails (findUserPatients db callerUserId)).isEmpty then false
  else
    (db.find? (fun q =>
      q.uhid == target &&
        matchesContact (truthyPhones (findUserPatients db callerUserId))
          (truthyEmails (findUserPatients db callerUserId)) q)).isSome

instance {ε α : Type _} [DecidableEq ε] [DecidableEq α] : DecidableEq (Except ε α) := fun x y => by
  cases x <;> cases y
  case error.error a b =>
    exact decidable_of_iff (a = b) ⟨fun h => h ▸ rfl, fun h => by cases h; rfl⟩
  case error.ok a b => exact .isFalse (fun h => Except.noConfusion h)
  case ok.error a b => exact .isFalse (fun h => Except.noConfusion h)
  case ok.ok a b =>
    exact decidable_of_iff (a = b) ⟨fun h => h ▸ rfl, fun h => by cases h; rfl⟩

/-- Operational error kinds thrown by the services (all carried as
`AppError` subclasses in the source; the constructor keeps the message). -/
inductive Err where
  | conflict (msg : String)
  | notFound (msg : String)
deriving DecidableEq, Repr

/-- Input shape of `AuthService.register` (`RegisterInput`): email is a
required string, phone and role are optional.  Password and department
are collaborator concerns and are dropped. -/
structure RegisterInput where
  email : String
  firstName : String
  lastName : String
  phone : Option String
  role : Option Role
deriving DecidableEq, Repr

/-- Orphan criterion of `AuthService.register`: a row with no linked
account whose email matches the truthy input email or whose phone
matches the truthy input phone. -/
def orphanMatchReg (input : RegisterInput) (p : Patient) : Bool :=
  p.userId == none &&
    ((input.email != "" && p.email == some input.email) ||
      (match input.phone with
       | some ph => ph != "" && p.phone == ph
       | none => false))

/-- Embedding of `AuthService.register`.  Oracle arguments supply the
database-generated account id, the freshly generated UHID
(`randomUUID()`), and the creation timestamp.  Raises `Conflict` when an
account with the input email already exists; otherwise creates the
account and, for PATIENT registrations, links a matching orphan Identity
record (backfilling its email when it was empty) or creates a new one;
non-PATIENT registrations create a staff row instead.  The `Except`
result models the surrounding transaction: on an error no write is
committed. -/
def register (db : Store) (input : RegisterInput) (newUserId newUhid : String) (now : Nat) :
    Except Err Store :=
  if (db.users.find? (fun u => u.email == input.email)).isSome then
    .error (.conflict "User with this email already exists")
  else
    let newUser : User := { id := newUserId, email := input.email, role := input.role.getD .PATIENT }
    let db1 : Store := { db with users := db.users ++ [newUser] }
    if input.role == some Role.PATIENT || input.role == none then
      let hasCriteria := input.email != "" || optStrTruthy input.phone
      let existingPatient := if hasCriteria then db1.patients.find? (orphanMatchReg input) else none
      match existingPatient with
      | some orphan =>
          .ok { db1 with
                patients := db1.patients.map (fun p =>
                  if p.uhid == orphan.uhid then
                    { p with userId := some newUserId, email := jsOrOptStr orphan.email (some input.email) }
                  else p) }
      | none =>
          .ok { db1 with
                patients := db1.patients ++ [{
                  uhid := newUhid
                  userId := some newUserId
                  firstName := input.firstName
                  lastName := input.lastName
                  phone := input.phone.getD ""
                  email := some input.email
                  createdAt := now }] }
    else
      .ok { db1 with
            staff := db1.staff ++ [{
              userId := newUserId
              firstName := input.firstName
              lastName := input.lastName
              phone := input.phone
              specialization := none }] }

/-- Input shape of `PatientsService.create` (`createPatientSchema`):
email and uhid are optional, phone is required.  Demographic fields no
claim inspects are dropped. -/
structure CreatePatientInput where
  email : Option String
  uhid : Option String
  firstName : String
  lastName : String
  phone : String
deriving DecidableEq, Repr

/-- Embedding of `PatientsService.create` (staff-initiated walk-in
registration).  Rejects a falsy email with `Conflict`, then rejects a
duplicate account email with `Conflict`; otherwise creates the account
and links a matching orphan Identity record (updating only its
`userId`), or creates a new Identity record whose UHID is the input UHID
when truthy and the generated one otherwise.  Returns the linked or
created patient row together with the new store. -/
def createPatient (db : Store) (input : CreatePatientInput) (newUserId genUhid : String)
    (now : Nat) : Except Err (Store × Patient) :=
  match input.email with
  | none => .error (.conflict "Email is required for patient registration")
  | some e =>
    if e = "" then .error (.conflict "Email is required for patient registration")
    else if (db.users.find? (fun u => u.email == e)).isSome then
      .error (.conflict "User with this email already exists")
    else
      let newUser : User := { id := newUserId, email := e, role := .PATIENT }
      let db1 : Store := { db with users := db.users ++ [newUser] }
      let existingPatient := db1.patients.find? (fun p =>
        p.userId == none &&
          (p.email == some e || (input.phone != "" && p.phone == input.phone)))
      match existingPatient with
      | some orphan =>
          let updated : Patient := { orphan with userId := some newUserId }
          .ok ({ db1 with
                 patients := db1.patients.map (fun p =>
                   if p.uhid == orphan.uhid then { p with userId := some newUserId } else p) },
               updated)
      | none =>
          let newP : Patient := {
            uhid := jsOrStr input.uhid genUhid
            userId := some newUserId
            firstName := input.firstName
            lastName := input.lastName
            phone := input.phone
            email := some e
            createdAt := now }
          .ok ({ db1 with patients := db1.patients ++ [newP] }, newP)

/-- Unified prescription entry produced by `getPrescriptions`: either a
standalone `prescriptions` row or a clinical visit transformed into a
compatible shape and tagged with `isMedicalRecord`. -/
structure PxEntry where
  id : String
  patientId : String
  notes : Option String
  medicines : List Med
  createdAt : Nat
  isMedicalRecord : Bool
deriving DecidableEq, Repr

/-- Shape of a standalone prescription row in the merged output (the
`isMedicalRecord` key is absent on these objects in JavaScript, hence
falsy). -/
def standaloneEntry (r : PrescriptionRec) : PxEntry :=
  { id := r.id
    patientId := r.patientId
    notes := r.notes
    medicines := r.medicines
    createdAt := r.createdAt
    isMedicalRecord := false }

/-- Raw embedded prescription list of a visit:
`mr.prescriptions || mr.vitalSigns?.prescriptions || []` (a present but
empty array is truthy in JavaScript). -/
def mrRawPx (mr : MedicalRecord) : List Med :=
  match mr.prescriptions with
  | some l => l
  | none => mr.vitalSignsPrescriptions.getD []

/-- Visit-to-prescription transformation of `getPrescriptions`:
normalize each medicine name via
`med.name || med.medicineName || "Prescribed Medicine"` and tag the
entry with `isMedicalRecord: true`. -/
def mrEntry (mr : MedicalRecord) : PxEntry :=
  { id := mr.id
    patientId := mr.patientId
    notes := jsOrOptStr mr.notes mr.diagnosis
    medicines := (mrRawPx mr).map (fun med =>
      { med with name := some (jsOrStr med.name (jsOrStr med.medicineName "Prescribed Medicine")) })
    createdAt := mr.createdAt
    isMedicalRecord := true }

/-- Embedding of `PatientsService.getPrescriptions`: resolve the closure,
fetch standalone prescriptions and visits of all closure members, keep
the visits carrying an embedded prescription list, transform them, and
sort the merged list by creation time descending. -/
def getPrescriptions (db : Store) (patientId : String) : List PxEntry :=
  let patientIds := resolvePatientIds db.patients patientId
  let standalone :=
    sortDescBy PrescriptionRec.createdAt
      (db.prescriptions.filter (fun r => patientIds.contains r.patientId))
  let medicalRecords :=
    sortDescBy MedicalRecord.createdAt
      (db.medicalRecords.filter (fun r => patientIds.contains r.patientId))
  let mrPrescriptions :=
    (medicalRecords.filter (fun mr =>
      (mr.prescriptions.getD []).length > 0 ||
        (mr.vitalSignsPrescriptions.getD []).length > 0)).map mrEntry
  sortDescBy PxEntry.createdAt (standalone.map standaloneEntry ++ mrPrescriptions)

/-- Summary of the latest visit attached to each bill by `getBills`. -/
structure MRSummary where
  diagnosis : Option String
  treatment : Option String
  notes : Option String
deriving DecidableEq, Repr

/-- Embedding of `PatientsService.getBills`: resolve the closure, fetch
the bills of all closure members sorted by creation time descending, and
attach the latest visit of the own patient of each bill when one exists. -/
def getBills (db : Store) (patientId : String) : List (Bill × Option MRSummary) :=
  let patientIds := resolvePatientIds db.patients patientId
  let bills :=
    sortDescBy Bill.createdAt (db.bills.filter (fun b => patientIds.contains b.patientId))
  bills.map (fun bill =>
    let medicalRecord :=
      (sortDescBy MedicalRecord.createdAt
        (db.medicalRecords.filter (fun r => r.patientId == bill.patientId))).head?
    (bill, medicalRecord.map (fun mr =>
      { diagnosis := mr.diagnosis, treatment := mr.treatment, notes := mr.notes })))

/-- Embedding of `PatientsService.getLabResults`: resolve the closure and
fetch the lab orders of all closure members sorted by creation time
descending. -/
def getLabResults (db : Store) (patientId : String) : List LabOrder :=
  let patientIds := resolvePatientIds db.patients patientId
  sortDescBy LabOrder.createdAt (db.labOrders.filter (fun o => patientIds.contains o.patientId))

/-- Two Identity records share a phone when the phone values are equal
and non-empty (the identity-link edge of the data model). -/
def sharesPhone (p q : Patient) : Prop := p.phone = q.phone ∧ p.phone ≠ ""

/-- Two Identity records share an email when both carry the same
non-empty email value. -/
def sharesEmail (p q : Patient) : Prop :=
  ∃ e, e ≠ "" ∧ p.email = some e ∧ q.email = some e

instance (p q : Patient) : Decidable (sharesPhone p q) := by
  unfold sharesPhone; infer_instance

instance (p q : Patient) : Decidable (sharesEmail p q) :=
  match hp : p.email, hq : q.email with
  | some e1, some e2 =>
    if h : e1 ≠ "" ∧ e1 = e2 then
      .isTrue ⟨e1, h.1, hp, h.2 ▸ hq⟩
    else
      .isFalse (by
        rintro ⟨e, he, he1, he2⟩
        rw [hp] at he1; rw [hq] at he2
        cases he1; cases he2
        exact h ⟨he, rfl⟩)
  | some e1, none =>
    .isFalse (by rintro ⟨e, he, he1, he2⟩; rw [hq] at he2; cases he2)
  | none, _ =>
    .isFalse (by rintro ⟨e, he, he1, he2⟩; rw [hp] at he1; cases he1)

/-- Records of the bounded-depth chain scenario of C3: A and B share
phone "111", B and C share email "b@x.com", C and D share phone "222". -/
def chainDB : List Patient := [
  ⟨"A", none, "fa", "la", "111", none, 0⟩,
  ⟨"B", none, "fb", "lb", "111", some "b@x.com", 1⟩,
  ⟨"C", none, "fc", "lc", "222", some "b@x.com", 2⟩,
  ⟨"D", none, "fd", "ld", "222", none, 3⟩]

/-- Store for the C1 counterexample: the caller account "u" owns record
"a" (phone "1"); record "b" shares that phone and carries email "e";
record "c" shares email "e" with "b" only, so "c" is a 2-hop closure
member of "a" but shares no contact data with "a" itself. -/
def aggDB : List Patient := [
  ⟨"a", some "u", "f", "l", "1", none, 0⟩,
  ⟨"b", none, "f", "l", "1", some "e", 1⟩,
  ⟨"c", none, "f", "l", "3", some "e", 2⟩]

/-- Store for the C2 witness: the caller account "u" owns record "a",
and the target record "t" shares no contact data with it. -/
def strictDB : List Patient := [
  ⟨"a", some "u", "f", "l", "1", none, 0⟩,
  ⟨"t", none, "g", "m", "2", some "x", 1⟩]

/-- Degenerate store for the C4 counterexample: record "p" has an empty
phone and no email; record "q" also has an empty phone but carries an
email, so pass 2 of the closure of "p" matches only "q". -/
def degenerateDB : List Patient := [
  ⟨"p", none, "f", "l", "", none, 0⟩,
  ⟨"q", none, "f", "l", "", some "e", 1⟩]

/-- Store for the C4 witness: one ordinary record with a phone. -/
def selfDB : List Patient := [⟨"s", none, "f", "l", "9", none, 0⟩]

/-- Store for the C6 witness: two records sharing phone "7". -/
def symmDB : List Patient := [
  ⟨"a1", none, "f", "l", "7", none, 0⟩,
  ⟨"b1", none, "g", "m", "7", some "z", 1⟩]

/-- Store for the C5 counterexample and witness: a single orphan walk-in
record with phone "9000000001" and no email, and no accounts. -/
def orphanStore : Store := ⟨[], [], [⟨"o", none, "Ram", "K", "9000000001", none, 0⟩], [], [], [], []⟩

/-- Walk-in registration input matching the orphan of `orphanStore` by phone
and carrying an email the orphan lacks. -/
def orphanInput : CreatePatientInput := ⟨some "a@x.com", none, "Ram", "K", "9000000001"⟩

/-- Self-registration input matching the orphan of `orphanStore` by phone. -/
def orphanRegInput : RegisterInput := ⟨"a@x.com", "Ram", "K", some "9000000001", none⟩

/-- Store with no matching orphan, for the creation branches of C5. -/
def freshStore : Store := ⟨[], [], [⟨"z", some "w", "A", "B", "5", some "z@x.com", 0⟩], [], [], [], []⟩

/-- Registration input matching nothing in `freshStore`. -/
def freshRegInput : RegisterInput := ⟨"n@x.com", "N", "E", some "6", none⟩

/-- Walk-in input matching nothing in `freshStore`, with no explicit UHID. -/
def freshInput : CreatePatientInput := ⟨some "n@x.com", none, "N", "E", "6"⟩

/-- Store for the C7 witness: one patient, one standalone prescription
and one visit embedding a legacy-named prescription entry. -/
def mergeStore : Store := ⟨[], [],
  [⟨"pa", none, "f", "l", "1", none, 0⟩],
  [⟨"rx1", "pa", some "take", [⟨some "Dolo", none⟩], 5⟩],
  [⟨"mr1", "pa", some "flu", none, none, some [⟨none, some "Azith"⟩], none, 9⟩],
  [], []⟩

/-- Store for the C9 witness: one patient with clinical rows, queried
with an unknown UHID. -/
def unknownStore : Store := ⟨[], [],
  [⟨"pa", none, "f", "l", "1", none, 0⟩],
  [⟨"rx1", "pa", none, [], 5⟩],
  [⟨"mr1", "pa", none, none, none, none, none, 9⟩],
  [⟨"b1", "pa", 3⟩], [⟨"lab1", "pa", 4⟩]⟩

/-- Store for the C8 witness: one account with email "a@x.com". -/
def dupStore : Store := ⟨[⟨"u0", "a@x.com", .PATIENT⟩], [], [], [], [], [], []⟩

/-- Registration input whose email collides with the account of `dupStore`. -/
def dupRegInput : RegisterInput := ⟨"a@x.com", "R", "K", none, none⟩

/-- Walk-in input whose email collides with the account of `dupStore`. -/
def dupCreateInput : CreatePatientInput := ⟨some "a@x.com", none, "R", "K", "9"⟩

/-- Walk-in input with no email, for the C10 witness. -/
def noEmailInput : CreatePatientInput := ⟨none, none, "R", "K", "9"⟩

theorem mem_insertDescBy {key : α → Nat} {x a : α} {l : List α} :
    a ∈ insertDescBy key x l ↔ a = x ∨ a ∈ l := by
  induction l with
  | nil => simp [insertDescBy]
  | cons y ys ih =>
    unfold insertDescBy
    split
    · simp
    · simp only [List.mem_cons, ih]
      tauto

theorem mem_sortDescBy {key : α → Nat} {a : α} {l : List α} :
    a ∈ sortDescBy key l ↔ a ∈ l := by
  induction l with
  | nil => simp [sortDescBy]
  | cons x xs ih => simp [sortDescBy, mem_insertDescBy, ih]

theorem mem_insertAscBy {key : α → Nat} {x a : α} {l : List α} :
    a ∈ insertAscBy key x l ↔ a = x ∨ a ∈ l := by
  induction l with
  | nil => simp [insertAscBy]
  | cons y ys ih =>
    unfold insertAscBy
    split
    · simp
    · simp only [List.mem_cons, ih]
      tauto

theorem mem_sortAscBy {key : α → Nat} {a : α} {l : List α} :
    a ∈ sortAscBy key l ↔ a ∈ l := by
  induction l with
  | nil => simp [sortAscBy]
  | cons x xs ih => simp [sortAscBy, mem_insertAscBy, ih]

theorem mem_jsDedupAux {a : String} {l : List String} : ∀ {seen : List String},
    a ∈ jsDedupAux seen l ↔ a ∈ l ∧ a ∉ seen := by
  induction l with
  | nil => intro seen; simp [jsDedupAux]
  | cons x xs ih =>
    intro seen
    unfold jsDedupAux
    split
    next h =>
      have hx : x ∈ seen := by
        simpa only [List.contains, List.elem_eq_mem, decide_eq_true_eq] using h
      rw [ih]
      simp only [List.mem_cons]
      constructor
      · rintro ⟨h1, h2⟩
        exact ⟨Or.inr h1, h2⟩
      · rintro ⟨h1 | h1, h2⟩
        · exact absurd (h1 ▸ hx) h2
        · exact ⟨h1, h2⟩
    next h =>
      simp only [List.mem_cons, ih]
      constructor
      · rintro (rfl | ⟨h1, h2⟩)
        · refine ⟨Or.inl rfl, fun hs => ?_⟩
          exact h (by simpa only [List.contains, List.elem_eq_mem, decide_eq_true_eq] using hs)
        · exact ⟨Or.inr h1, fun hs => h2 (Or.inr hs)⟩
      · rintro ⟨h1, h2⟩
        by_cases hax : a = x
        · exact Or.inl hax
        · rcases h1 with rfl | h1
          · exact Or.inl rfl
          · exact Or.inr ⟨h1, fun hs => hs.elim (fun hh => hax hh) h2⟩

theorem mem_jsDedup {a : String} {l : List String} : a ∈ jsDedup l ↔ a ∈ l := by
  simp [jsDedup, mem_jsDedupAux]

theorem mem_truthyPhones {l : List Patient} {x : String} :
    x ∈ truthyPhones l ↔ ∃ p ∈ l, p.phone = x ∧ p.phone ≠ "" := by
  simp only [truthyPhones, List.mem_map, List.mem_filter]
  constructor
  · rintro ⟨p, ⟨hp, hne⟩, rfl⟩
    exact ⟨p, hp, rfl, by simpa using hne⟩
  · rintro ⟨p, hp, rfl, hne⟩
    exact ⟨p, ⟨hp, by simpa using hne⟩, rfl⟩

theorem mem_truthyEmails {l : List Patient} {e : String} :
    e ∈ truthyEmails l ↔ ∃ p ∈ l, p.email = some e ∧ e ≠ "" := by
  simp only [truthyEmails, List.mem_filterMap]
  constructor
  · rintro ⟨p, hp, hbind⟩
    match hpe : p.email with
    | none => rw [hpe] at hbind; cases hbind
    | some e0 =>
      rw [hpe] at hbind
      simp only [Option.some_bind] at hbind
      by_cases h0 : e0 = ""
      · rw [if_pos h0] at hbind; cases hbind
      · rw [if_neg h0] at hbind
        cases hbind
        exact ⟨p, hp, hpe, h0⟩
  · rintro ⟨p, hp, hpe, hne⟩
    refine ⟨p, hp, ?_⟩
    rw [hpe]
    simp [hne]

theorem matchesContact_iff {phones emails : List String} {p : Patient} :
    matchesContact phones emails p = true ↔
      p.phone ∈ phones ∨ ∃ e, p.email = some e ∧ e ∈ emails := by
  unfold matchesContact
  simp only [Bool.or_eq_true, List.contains, List.elem_eq_mem, decide_eq_true_eq]
  constructor
  · rintro (h | h)
    · exact Or.inl h
    · right
      match hpe : p.email with
      | none => rw [hpe] at h; cases h
      | some e =>
        rw [hpe] at h
        simp only [List.elem_eq_mem, decide_eq_true_eq] at h
        exact ⟨e, rfl, h⟩
  · rintro (h | ⟨e, hpe, he⟩)
    · exact Or.inl h
    · right
      rw [hpe]
      simpa using he

theorem mem_getLinkedPatients_of_shares {db : List Patient} {S T : Patient}
    (hT : T ∈ db) (h : sharesPhone S T ∨ sharesEmail S T) :
    T ∈ getLinkedPatients db S := by
  have hTp1 : T ∈ pass1 db S := by
    refine List.mem_filter.mpr ⟨hT, ?_⟩
    rcases h with ⟨hph, _⟩ | ⟨e, hne, hSe, hTe⟩
    · simp [pass1Pred, hph]
    · simp [pass1Pred, optStrTruthy, hSe, hTe, hne]
  unfold getLinkedPatients
  rcases h with ⟨hph, hne⟩ | ⟨e, hne, hSe, hTe⟩
  · have hTphones : T.phone ∈ truthyPhones (pass1 db S) :=
      mem_truthyPhones.mpr ⟨T, hTp1, rfl, by rw [← hph]; exact hne⟩
    rw [if_neg]
    · exact mem_sortAscBy.mpr
        (List.mem_filter.mpr ⟨hT, matchesContact_iff.mpr (Or.inl hTphones)⟩)
    · have hcond : (truthyPhones (pass1 db S)).isEmpty = false :=
        List.isEmpty_eq_false.mpr (List.ne_nil_of_mem hTphones)
      simp [hcond]
  · have hTe' : e ∈ truthyEmails (pass1 db S) := mem_truthyEmails.mpr ⟨T, hTp1, hTe, hne⟩
    rw [if_neg]
    · exact mem_sortAscBy.mpr
        (List.mem_filter.mpr ⟨hT, matchesContact_iff.mpr (Or.inr ⟨e, hTe, hTe'⟩)⟩)
    · have hcond : (truthyEmails (pass1 db S)).isEmpty = false :=
        List.isEmpty_eq_false.mpr (List.ne_nil_of_mem hTe')
      simp [hcond]

theorem mem_resolvePatientIds_of_shares {db : List Patient} {S T : Patient}
    (hS : db.find? (fun p => p.uhid == S.uhid) = some S) (hT : T ∈ db)
    (h : sharesPhone S T ∨ sharesEmail S T) :
    T.uhid ∈ resolvePatientIds db S.uhid := by
  unfold resolvePatientIds
  rw [hS]
  unfold getLinkedPatientIds
  exact mem_jsDedup.mpr
    (List.mem_map_of_mem Patient.uhid (mem_getLinkedPatients_of_shares hT h))

/-- C3: in the four-record chain where A and B share phone "111", B and
C share email "b@x.com" (B carrying both), and C and D share phone "222"
distinct from "111", the bounded 2-pass closure of A contains the UHID
of C (a 2-hop member) but not the UHID of D (a 3-hop member). -/
theorem C3_bounded_depth_chain :
    "C" ∈ resolvePatientIds chainDB "A" ∧ "D" ∉ resolvePatientIds chainDB "A" := by
  decide

/-- C4 counterexample: for the degenerate record "p" (empty phone, no
email) stored next to another empty-phone record carrying an email,
`resolvePatientIds` returns only the other UHID, so the closure of "p"
does not contain "p" itself, refuting the unconditional claim. -/
theorem C4_counterexample :
    (degenerateDB.find? (fun r => r.uhid == "p") = some ⟨"p", none, "f", "l", "", none, 0⟩) ∧
    resolvePatientIds degenerateDB "p" = ["q"] ∧
    "p" ∉ resolvePatientIds degenerateDB "p" := by
  decide

/-- C4 (amended): for every Identity record P present in the store that
carries a non-empty phone or a non-empty email, the closure of the UHID
of P contains that UHID.  (The unconditional claim fails only for
records whose phone is empty and whose email is absent or empty, a shape
no repository write path produces.) -/
theorem C4_closure_contains_start (db : List Patient) (P : Patient)
    (hP : db.find? (fun p => p.uhid == P.uhid) = some P)
    (hcontact : P.phone ≠ "" ∨ ∃ e, e ≠ "" ∧ P.email = some e) :
    P.uhid ∈ resolvePatientIds db P.uhid := by
  apply mem_resolvePatientIds_of_shares hP (List.mem_of_find?_eq_some hP)
  rcases hcontact with h | ⟨e, he, hpe⟩
  · exact Or.inl ⟨rfl, h⟩
  · exact Or.inr ⟨e, he, hpe, hpe⟩

/-- C4 witness: the amended theorem applied to the one record of
`selfDB`. -/
theorem C4_witness : "s" ∈ resolvePatientIds selfDB "s" :=
  C4_closure_contains_start selfDB ⟨"s", none, "f", "l", "9", none, 0⟩ (by decide)
    (Or.inl (by decide))

/-- C6: whenever two stored Identity records A and B are directly linked
(they share a non-empty phone value or a non-empty email value), the
UHID of each lies in the resolved closure of the other. -/
theorem C6_one_hop_symmetry (db : List Patient) (A B : Patient)
    (hA : db.find? (fun p => p.uhid == A.uhid) = some A)
    (hB : db.find? (fun p => p.uhid == B.uhid) = some B)
    (hlink : sharesPhone A B ∨ sharesEmail A B) :
    B.uhid ∈ resolvePatientIds db A.uhid ∧ A.uhid ∈ resolvePatientIds db B.uhid := by
  have hsymm : sharesPhone B A ∨ sharesEmail B A := by
    rcases hlink with ⟨h1, h2⟩ | ⟨e, h1, h2, h3⟩
    · exact Or.inl ⟨h1.symm, h1 ▸ h2⟩
    · exact Or.inr ⟨e, h1, h3, h2⟩
  exact ⟨mem_resolvePatientIds_of_shares hA (List.mem_of_find?_eq_some hB) hlink,
         mem_resolvePatientIds_of_shares hB (List.mem_of_find?_eq_some hA) hsymm⟩

/-- C6 witness: the symmetry theorem applied to the two phone-sharing
records of `symmDB`. -/
theorem C6_witness :
    "b1" ∈ resolvePatientIds symmDB "a1" ∧ "a1" ∈ resolvePatientIds symmDB "b1" :=
  C6_one_hop_symmetry symmDB ⟨"a1", none, "f", "l", "7", none, 0⟩
    ⟨"b1", none, "g", "m", "7", some "z", 1⟩ (by decide) (by decide)
    (Or.inl (by decide))

/-- C10: the staff walk-in creation path rejects every input whose email
is absent (or empty, the other falsy shape) with a Conflict error before
touching the store, even though the input schema declares email
optional. -/
theorem C10_email_required (db : Store) (input : CreatePatientInput)
    (uid guid : String) (now : Nat)
    (h : input.email = none ∨ input.email = some "") :
    createPatient db input uid guid now =
      .error (.conflict "Email is required for patient registration") := by
  unfold createPatient
  rcases h with h | h
  · rw [h]
  · rw [h]; simp

/-- C10 witness: the rejection theorem applied to `noEmailInput` over the
orphan store. -/
theorem C10_witness :
    createPatient orphanStore noEmailInput "u" "g" 0 =
      .error (.conflict "Email is required for patient registration") :=
  C10_email_required orphanStore noEmailInput "u" "g" 0 (Or.inl rfl)

/-- C1 counterexample: in `aggDB` the caller "u" is a PATIENT with the
single directly linked record "a"; the UHID "c" lies in the 2-hop
closure of "a", yet the smart-linking guard denies access to "c",
refuting the claimed characterization of aggregate mode. -/
theorem C1_counterexample :
    (findUserPatients aggDB "u").map Patient.uhid = ["a"] ∧
    "c" ∈ resolvePatientIds aggDB "a" ∧
    patientAccessGuardAggregate aggDB "u" "c" = false := by
  decide

/-- C1 (amended): for a PATIENT caller with at least one directly linked
record and a non-empty target UHID, the smart-linking guard allows
access if and only if the target is one of the directly linked UHIDs of
the caller, or some stored record with the target UHID shares a
non-empty phone or email with one of those directly linked records.  The
guard performs no closure expansion, so 2-hop closure members reachable
only through an intermediate record are denied. -/
theorem C1_aggregate_guard_iff (db : List Patient) (callerUserId target : String)
    (hne : findUserPatients db callerUserId ≠ [])
    (ht : target ≠ "") :
    patientAccessGuardAggregate db callerUserId target = true ↔
      (∃ p ∈ findUserPatients db callerUserId, p.uhid = target) ∨
      (∃ q ∈ db, q.uhid = target ∧
        ∃ p ∈ findUserPatients db callerUserId, sharesPhone p q ∨ sharesEmail p q) := by
  have h1 : (findUserPatients db callerUserId).isEmpty = false :=
    List.isEmpty_eq_false.mpr hne
  by_cases hdirect : (findUserPatients db callerUserId).any (fun p => p.uhid == target) = true
  · have hd : ∃ p ∈ findUserPatients db callerUserId, p.uhid = target := by
      simpa using hdirect
    have hLHS : patientAccessGuardAggregate db callerUserId target = true := by
      unfold patientAccessGuardAggregate
      rw [if_neg ht]
      simp [h1, hdirect]
    exact iff_of_true hLHS (Or.inl hd)
  · have hd : ¬ ∃ p ∈ findUserPatients db callerUserId, p.uhid = target := by
      simpa using hdirect
    have hshares_iff : (∃ q, q ∈ db ∧ (q.uhid == target &&
        matchesContact (truthyPhones (findUserPatients db callerUserId))
          (truthyEmails (findUserPatients db callerUserId)) q) = true) ↔
        (∃ q ∈ db, q.uhid = target ∧
          ∃ p ∈ findUserPatients db callerUserId, sharesPhone p q ∨ sharesEmail p q) := by
      constructor
      · rintro ⟨q, hq, hpred⟩
        rw [Bool.and_eq_true, beq_iff_eq] at hpred
        obtain ⟨hqt, hmc⟩ := hpred
        rcases matchesContact_iff.mp hmc with hph | ⟨e, hqe, he⟩
        · obtain ⟨p, hp, hpq, hpne⟩ := mem_truthyPhones.mp hph
          exact ⟨q, hq, hqt, p, hp, Or.inl ⟨hpq, hpne⟩⟩
        · obtain ⟨p, hp, hpe, hene⟩ := mem_truthyEmails.mp he
          exact ⟨q, hq, hqt, p, hp, Or.inr ⟨e, hene, hpe, hqe⟩⟩
      · rintro ⟨q, hq, hqt, p, hp, hsh⟩
        refine ⟨q, hq, ?_⟩
        rw [Bool.and_eq_true, beq_iff_eq]
        refine ⟨hqt, matchesContact_iff.mpr ?_⟩
        rcases hsh with ⟨hpq, hpne⟩ | ⟨e, hene, hpe, hqe⟩
        · exact Or.inl (hpq ▸ mem_truthyPhones.mpr ⟨p, hp, rfl, hpne⟩)
        · exact Or.inr ⟨e, hqe, mem_truthyEmails.mpr ⟨p, hp, hpe, hene⟩⟩
    by_cases hcrit : ((truthyPhones (findUserPatients db callerUserId)).isEmpty &&
        (truthyEmails (findUserPatients db callerUserId)).isEmpty) = true
    · have hLHS : patientAccessGuardAggregate db callerUserId target = false := by
        unfold patientAccessGuardAggregate
        rw [if_neg ht]
        simp [h1, hdirect, hcrit]
      have hnoshare : ¬ (∃ q ∈ db, q.uhid = target ∧
          ∃ p ∈ findUserPatients db callerUserId, sharesPhone p q ∨ sharesEmail p q) := by
        rw [Bool.and_eq_true, List.isEmpty_eq_true, List.isEmpty_eq_true] at hcrit
        rintro ⟨q, _, _, p, hp, hsh⟩
        rcases hsh with ⟨hpq, hpne⟩ | ⟨e, hene, hpe, _⟩
        · have hm : p.phone ∈ truthyPhones (findUserPatients db callerUserId) :=
            mem_truthyPhones.mpr ⟨p, hp, rfl, hpne⟩
          rw [hcrit.1] at hm
          cases hm
        · have hm : e ∈ truthyEmails (findUserPatients db callerUserId) :=
            mem_truthyEmails.mpr ⟨p, hp, hpe, hene⟩
          rw [hcrit.2] at hm
          cases hm
      rw [hLHS]
      simp only [Bool.false_eq_true, false_iff]
      rintro (h | h)
      · exact hd h
      · exact hnoshare h
    · have hLHS : patientAccessGuardAggregate db callerUserId target =
          (db.find? (fun q => q.uhid == target &&
            matchesContact (truthyPhones (findUserPatients db callerUserId))
              (truthyEmails (findUserPatients db callerUserId)) q)).isSome := by
        unfold patientAccessGuardAggregate
        rw [if_neg ht]
        simp [h1, hdirect, hcrit]
      rw [hLHS, List.find?_isSome, hshares_iff]
      exact (or_iff_right hd).symm

/-- C1 witness: the amended characterization applied in `aggDB` to the
caller "u" and the 1-hop target "b". -/
theorem C1_witness :
    patientAccessGuardAggregate aggDB "u" "b" = true ↔
      (∃ p ∈ findUserPatients aggDB "u", p.uhid = "b") ∨
      (∃ q ∈ aggDB, q.uhid = "b" ∧
        ∃ p ∈ findUserPatients aggDB "u", sharesPhone p q ∨ sharesEmail p q) :=
  C1_aggregate_guard_iff aggDB "u" "b" (by decide) (by decide)

/-- C2: a PATIENT caller none of whose directly linked records shares a
non-empty phone or email with any stored record carrying the target
UHID, and whose own UHIDs do not include the target, is denied by both
the strict guard and the smart-linking guard. -/
theorem C2_denied_without_shared_contact (db : List Patient) (callerUserId target : String)
    (hown : ∀ p ∈ findUserPatients db callerUserId, p.uhid ≠ target)
    (hshare : ∀ q ∈ db, q.uhid = target →
      ∀ p ∈ findUserPatients db callerUserId, ¬ sharesPhone p q ∧ ¬ sharesEmail p q) :
    patientAccessGuardStrict db callerUserId target = false ∧
    patientAccessGuardAggregate db callerUserId target = false := by
  by_cases ht : target = ""
  · constructor
    · unfold patientAccessGuardStrict
      rw [if_pos ht]
    · unfold patientAccessGuardAggregate
      rw [if_pos ht]
  · have hany : (findUserPatients db callerUserId).any (fun p => p.uhid == target) = false := by
      rw [List.any_eq_false]
      intro p hp
      simpa using hown p hp
    have hfind : db.find? (fun q => q.uhid == target &&
        matchesContact (truthyPhones (findUserPatients db callerUserId))
          (truthyEmails (findUserPatients db callerUserId)) q) = none := by
      rw [List.find?_eq_none]
      intro q hq hpred
      rw [Bool.and_eq_true, beq_iff_eq] at hpred
      obtain ⟨hqt, hmc⟩ := hpred
      rcases matchesContact_iff.mp hmc with hph | ⟨e, hqe, he⟩
      · obtain ⟨p, hp, hpq, hpne⟩ := mem_truthyPhones.mp hph
        exact (hshare q hq hqt p hp).1 ⟨hpq, hpne⟩
      · obtain ⟨p, hp, hpe, hene⟩ := mem_truthyEmails.mp he
        exact (hshare q hq hqt p hp).2 ⟨e, hene, hpe, hqe⟩
    constructor
    · unfold patientAccessGuardStrict
      rw [if_neg ht]
      by_cases hempty : (findUserPatients db callerUserId).isEmpty = true
      · simp [hempty]
      · simp [hempty, hany]
    · unfold patientAccessGuardAggregate
      rw [if_neg ht]
      by_cases hempty : (findUserPatients db callerUserId).isEmpty = true
      · simp [hempty]
      · simp [hempty, hany, hfind]

/-- C2 witness: the denial theorem applied in `strictDB` to the caller
"u" and the unrelated target record "t". -/
theorem C2_witness :
    patientAccessGuardStrict strictDB "u" "t" = false ∧
    patientAccessGuardAggregate strictDB "u" "t" = false :=
  C2_denied_without_shared_contact strictDB "u" "t" (by decide) (by decide)

/-- C7: when the closure-filtered fetches return exactly one standalone
prescription and exactly one visit whose embedded prescription list
holds a single legacy-named medicine, the merged output contains both
entries ordered by creation time descending, with the legacy
`medicineName` copied into the canonical `name` field and the
visit-sourced entry tagged `isMedicalRecord := true` while the
standalone entry is not. -/
theorem C7_prescription_merge (db : Store) (u : String)
    (p : PrescriptionRec) (mr : MedicalRecord) (nm : String)
    (hP : db.prescriptions.filter
        (fun r => (resolvePatientIds db.patients u).contains r.patientId) = [p])
    (hM : db.medicalRecords.filter
        (fun r => (resolvePatientIds db.patients u).contains r.patientId) = [mr])
    (hpx : mr.prescriptions = some [⟨none, some nm⟩])
    (hnm : nm ≠ "") :
    getPrescriptions db u =
      if mr.createdAt ≤ p.createdAt then
        [⟨p.id, p.patientId, p.notes, p.medicines, p.createdAt, false⟩,
         ⟨mr.id, mr.patientId, jsOrOptStr mr.notes mr.diagnosis,
          [⟨some nm, some nm⟩], mr.createdAt, true⟩]
      else
        [⟨mr.id, mr.patientId, jsOrOptStr mr.notes mr.diagnosis,
          [⟨some nm, some nm⟩], mr.createdAt, true⟩,
         ⟨p.id, p.patientId, p.notes, p.medicines, p.createdAt, false⟩] := by
  simp only [getPrescriptions]
  rw [hP, hM]
  by_cases hT : mr.createdAt ≤ p.createdAt
  · simp [sortDescBy, insertDescBy, hpx, mrEntry, mrRawPx, standaloneEntry, jsOrStr, hnm, hT]
  · simp [sortDescBy, insertDescBy, hpx, mrEntry, mrRawPx, standaloneEntry, jsOrStr, hnm, hT]

/-- C7 witness: the merge theorem applied to `mergeStore`, whose visit
"mr1" is newer than the standalone prescription "rx1". -/
theorem C7_witness :
    getPrescriptions mergeStore "pa" =
      [⟨"mr1", "pa", jsOrOptStr (some "flu") none, [⟨some "Azith", some "Azith"⟩], 9, true⟩,
       ⟨"rx1", "pa", some "take", [⟨some "Dolo", none⟩], 5, false⟩] := by
  have h := C7_prescription_merge mergeStore "pa"
    ⟨"rx1", "pa", some "take", [⟨some "Dolo", none⟩], 5⟩
    ⟨"mr1", "pa", some "flu", none, none, some [⟨none, some "Azith"⟩], none, 9⟩
    "Azith" (by decide) (by decide) (by decide) (by decide)
  simpa using h

/-- Clinical rows never reference a UHID that no patient row carries, so
a singleton criteria list built from an unknown UHID filters everything
out. -/
theorem filter_unknown_eq_nil {α : Type} (l : List α) (pid : α → String) (u : String)
    (h : ∀ r ∈ l, pid r ≠ u) :
    l.filter (fun r => List.contains [u] (pid r)) = [] := by
  rw [List.filter_eq_nil_iff]
  intro r hr
  simpa using h r hr

/-- C9: for a UHID no patient row carries, in a store satisfying the
foreign-key invariant that every clinical row references a stored
patient, the three aggregation reads all return the empty list: the
resolver falls back to the singleton closure and the filters match
nothing, and none of the three functions can raise an error. -/
theorem C9_unknown_uhid_yields_empty (db : Store) (u : String)
    (hu : db.patients.find? (fun p => p.uhid == u) = none)
    (hfk1 : ∀ r ∈ db.prescriptions, ∃ q ∈ db.patients, r.patientId = q.uhid)
    (hfk2 : ∀ r ∈ db.medicalRecords, ∃ q ∈ db.patients, r.patientId = q.uhid)
    (hfk3 : ∀ r ∈ db.bills, ∃ q ∈ db.patients, r.patientId = q.uhid)
    (hfk4 : ∀ r ∈ db.labOrders, ∃ q ∈ db.patients, r.patientId = q.uhid) :
    getPrescriptions db u = [] ∧ getBills db u = [] ∧ getLabResults db u = [] := by
  have hres : resolvePatientIds db.patients u = [u] := by
    unfold resolvePatientIds
    rw [hu]
  have hnone : ∀ q ∈ db.patients, q.uhid ≠ u := by
    intro q hq
    simpa using List.find?_eq_none.mp hu q hq
  have hgen : ∀ {α : Type} (l : List α) (pid : α → String),
      (∀ r ∈ l, ∃ q ∈ db.patients, pid r = q.uhid) →
      ∀ r ∈ l, pid r ≠ u := by
    intro α l pid hl r hr
    obtain ⟨q, hq, heq⟩ := hl r hr
    rw [heq]
    exact hnone q hq
  refine ⟨?_, ?_, ?_⟩
  · simp only [getPrescriptions, hres]
    rw [filter_unknown_eq_nil db.prescriptions PrescriptionRec.patientId u
          (hgen db.prescriptions PrescriptionRec.patientId hfk1),
        filter_unknown_eq_nil db.medicalRecords MedicalRecord.patientId u
          (hgen db.medicalRecords MedicalRecord.patientId hfk2)]
    simp [sortDescBy]
  · simp only [getBills, hres]
    rw [filter_unknown_eq_nil db.bills Bill.patientId u
          (hgen db.bills Bill.patientId hfk3)]
    simp [sortDescBy]
  · simp only [getLabResults, hres]
    rw [filter_unknown_eq_nil db.labOrders LabOrder.patientId u
          (hgen db.labOrders LabOrder.patientId hfk4)]
    simp [sortDescBy]

/-- C9 witness: the empty-aggregation theorem applied to `unknownStore`
and the unknown UHID "zzz". -/
theorem C9_witness :
    getPrescriptions unknownStore "zzz" = [] ∧ getBills unknownStore "zzz" = [] ∧
    getLabResults unknownStore "zzz" = [] :=
  C9_unknown_uhid_yields_empty unknownStore "zzz" (by decide) (by decide) (by decide)
    (by decide) (by decide)

/-- With no duplicate account email, `register` always commits: every
branch of the registration transaction returns a result. -/
theorem register_ok (db : Store) (input : RegisterInput) (uid nuhid : String) (now : Nat)
    (h : db.users.find? (fun usr => usr.email == input.email) = none) :
    ∃ s, register db input uid nuhid now = .ok s := by
  simp only [register, h, Option.isSome_none, Bool.false_eq_true, if_false]
  split
  · split
    · exact ⟨_, rfl⟩
    · exact ⟨_, rfl⟩
  · exact ⟨_, rfl⟩

/-- With a truthy email and no duplicate account email,
`PatientsService.create` always commits. -/
theorem createPatient_ok (db : Store) (input : CreatePatientInput) (uid guid : String)
    (now : Nat) (e : String) (hin : input.email = some e) (hne : e ≠ "")
    (h : db.users.find? (fun usr => usr.email == e) = none) :
    ∃ s ret, createPatient db input uid guid now = .ok (s, ret) := by
  simp only [createPatient, hin, h, Option.isSome_none, Bool.false_eq_true, if_false, if_neg hne]
  split
  · exact ⟨_, _, rfl⟩
  · exact ⟨_, _, rfl⟩

/-- C8: both registration paths raise the duplicate-account-email
Conflict exactly when an account with the input email already exists at
the start of the call; the `Except` encoding carries no partial store on
the error, matching the transactional rollback (no Account and no
Identity record is created). -/
theorem C8_duplicate_email_conflict :
    (∀ (db : Store) (input : RegisterInput) (uid nuhid : String) (now : Nat),
      register db input uid nuhid now =
          .error (.conflict "User with this email already exists") ↔
        ∃ usr ∈ db.users, usr.email = input.email) ∧
    (∀ (db : Store) (input : CreatePatientInput) (uid guid : String) (now : Nat) (e : String),
      input.email = some e → e ≠ "" →
      (createPatient db input uid guid now =
          .error (.conflict "User with this email already exists") ↔
        ∃ usr ∈ db.users, usr.email = e)) := by
  constructor
  · intro db input uid nuhid now
    cases hfind : db.users.find? (fun usr => usr.email == input.email) with
    | some usr =>
      have hLHS : register db input uid nuhid now =
          .error (.conflict "User with this email already exists") := by
        unfold register
        rw [hfind]
        rfl
      refine iff_of_true hLHS ?_
      exact ⟨usr, List.mem_of_find?_eq_some hfind, by simpa using List.find?_some hfind⟩
    | none =>
      obtain ⟨s, hs⟩ := register_ok db input uid nuhid now hfind
      rw [hs]
      apply iff_of_false (by simp)
      rintro ⟨usr, hmem, heqe⟩
      have hcontra := List.find?_eq_none.mp hfind usr hmem
      simp [heqe] at hcontra
  · intro db input uid guid now e hin hne
    cases hfind : db.users.find? (fun usr => usr.email == e) with
    | some usr =>
      have hLHS : createPatient db input uid guid now =
          .error (.conflict "User with this email already exists") := by
        simp only [createPatient, hin, if_neg hne, hfind]
        rfl
      refine iff_of_true hLHS ?_
      exact ⟨usr, List.mem_of_find?_eq_some hfind, by simpa using List.find?_some hfind⟩
    | none =>
      obtain ⟨s, ret, hs⟩ := createPatient_ok db input uid guid now e hin hne hfind
      rw [hs]
      apply iff_of_false (by simp)
      rintro ⟨usr, hmem, heqe⟩
      have hcontra := List.find?_eq_none.mp hfind usr hmem
      simp [heqe] at hcontra

/-- C8 witness: both directions of the characterization applied over
`dupStore`, whose single account carries the colliding email. -/
theorem C8_witness :
    (register dupStore dupRegInput "u9" "h9" 3 =
        .error (.conflict "User with this email already exists") ↔
      ∃ usr ∈ dupStore.users, usr.email = dupRegInput.email) ∧
    (createPatient dupStore dupCreateInput "u9" "h9" 3 =
        .error (.conflict "User with this email already exists") ↔
      ∃ usr ∈ dupStore.users, usr.email = "a@x.com") :=
  ⟨C8_duplicate_email_conflict.1 dupStore dupRegInput "u9" "h9" 3,
   C8_duplicate_email_conflict.2 dupStore dupCreateInput "u9" "h9" 3 "a@x.com" rfl
     (by decide)⟩

/-- C5 counterexample: the walk-in path links the phone-matched orphan
"o" (whose email is empty) to the new account but leaves its email
`none` even though the input supplies "a@x.com", refuting the claimed
backfill; the orphan count and UHID are otherwise preserved. -/
theorem C5_counterexample :
    createPatient orphanStore orphanInput "u1" "g1" 5 =
      .ok (⟨[⟨"u1", "a@x.com", .PATIENT⟩], [],
            [⟨"o", some "u1", "Ram", "K", "9000000001", none, 0⟩], [], [], [], []⟩,
           ⟨"o", some "u1", "Ram", "K", "9000000001", none, 0⟩) ∧
    orphanInput.email = some "a@x.com" ∧
    orphanStore.patients.map Patient.email = [none] := by
  decide

/-- C5 (amended): with no duplicate account email, (1) self-registration
with a matching orphan attaches the new account to it, backfills its
email when empty, and keeps its UHID with the Identity count unchanged;
(2) self-registration without a matching orphan appends exactly one new
record carrying the generated UHID; (3) walk-in creation with a matching
orphan attaches the account and keeps UHID and count but leaves the
orphan email unchanged (no backfill); (4) walk-in creation without a
matching orphan and without a caller-supplied UHID appends exactly one
new record carrying the generated UHID. -/
theorem C5_link_or_create :
    (∀ (db : Store) (input : RegisterInput) (uid nuhid : String) (now : Nat) (orphan : Patient),
      db.users.find? (fun usr => usr.email == input.email) = none →
      (input.role = some Role.PATIENT ∨ input.role = none) →
      db.patients.find? (orphanMatchReg input) = some orphan →
      (db.patients.map Patient.uhid).Nodup →
      ∃ db2, register db input uid nuhid now = .ok db2 ∧
        db2.patients.length = db.patients.length ∧
        db2.patients.map Patient.uhid = db.patients.map Patient.uhid ∧
        ∀ q ∈ db2.patients, q.uhid = orphan.uhid →
          q = { orphan with
                userId := some uid,
                email := jsOrOptStr orphan.email (some input.email) }) ∧
    (∀ (db : Store) (input : RegisterInput) (uid nuhid : String) (now : Nat),
      db.users.find? (fun usr => usr.email == input.email) = none →
      (input.role = some Role.PATIENT ∨ input.role = none) →
      db.patients.find? (orphanMatchReg input) = none →
      ∃ db2, register db input uid nuhid now = .ok db2 ∧
        db2.patients = db.patients ++ [{
          uhid := nuhid, userId := some uid, firstName := input.firstName,
          lastName := input.lastName, phone := input.phone.getD "",
          email := some input.email, createdAt := now }] ∧
        db2.patients.length = db.patients.length + 1) ∧
    (∀ (db : Store) (input : CreatePatientInput) (uid guid : String) (now : Nat)
        (e : String) (orphan : Patient),
      input.email = some e → e ≠ "" →
      db.users.find? (fun usr => usr.email == e) = none →
      db.patients.find? (fun p => p.userId == none &&
        (p.email == some e || (input.phone != "" && p.phone == input.phone))) = some orphan →
      (db.patients.map Patient.uhid).Nodup →
      ∃ db2 ret, createPatient db input uid guid now = .ok (db2, ret) ∧
        ret = { orphan with userId := some uid } ∧
        db2.patients.length = db.patients.length ∧
        db2.patients.map Patient.uhid = db.patients.map Patient.uhid ∧
        ∀ q ∈ db2.patients, q.uhid = orphan.uhid → q = { orphan with userId := some uid }) ∧
    (∀ (db : Store) (input : CreatePatientInput) (uid guid : String) (now : Nat) (e : String),
      input.email = some e → e ≠ "" →
      db.users.find? (fun usr => usr.email == e) = none →
      db.patients.find? (fun p => p.userId == none &&
        (p.email == some e || (input.phone != "" && p.phone == input.phone))) = none →
      input.uhid = none →
      ∃ db2 ret, createPatient db input uid guid now = .ok (db2, ret) ∧
        ret = { uhid := guid, userId := some uid, firstName := input.firstName,
                lastName := input.lastName, phone := input.phone, email := some e,
                createdAt := now } ∧
        db2.patients = db.patients ++ [ret]) := by
  refine ⟨?_, ?_, ?_, ?_⟩
  · intro db input uid nuhid now orphan huser hrole hfind hnodup
    have hmem := List.mem_of_find?_eq_some hfind
    have horphan := List.find?_some hfind
    have hrole2 : (input.role == some Role.PATIENT || input.role == none) = true := by
      rcases hrole with h | h <;> simp [h]
    have hcrit : (input.email != "" || optStrTruthy input.phone) = true := by
      unfold orphanMatchReg at horphan
      rw [Bool.and_eq_true] at horphan
      have hor := horphan.2
      rw [Bool.or_eq_true] at hor
      rcases hor with hc | hc
      · rw [Bool.and_eq_true] at hc
        simp [hc.1]
      · cases hp : input.phone with
        | none => rw [hp] at hc; cases hc
        | some ph =>
          rw [hp] at hc
          rw [Bool.and_eq_true] at hc
          simp [optStrTruthy, hp, hc.1]
    have hreg : register db input uid nuhid now = .ok
        { db with
          users := db.users ++ [{ id := uid, email := input.email, role := input.role.getD .PATIENT }],
          patients := db.patients.map (fun p =>
            if p.uhid == orphan.uhid then
              { p with userId := some uid, email := jsOrOptStr orphan.email (some input.email) }
            else p) } := by
      simp only [register, huser, Option.isSome_none, Bool.false_eq_true, if_false,
        hrole2, if_true, hcrit, hfind]
    refine ⟨_, hreg, by simp, ?_, ?_⟩
    · rw [List.map_map]
      apply List.map_congr_left
      intro a _
      simp only [Function.comp_apply]
      split <;> rfl
    · intro q hq hquhid
      obtain ⟨p0, hp0, rfl⟩ := List.mem_map.mp hq
      by_cases hb : (p0.uhid == orphan.uhid) = true
      · have hpe : p0 = orphan :=
          List.inj_on_of_nodup_map hnodup hp0 hmem (beq_iff_eq.mp hb)
        subst hpe
        simp
      · exfalso
        rw [if_neg hb] at hquhid
        exact hb (beq_iff_eq.mpr hquhid)
  · intro db input uid nuhid now huser hrole hfind
    have hrole2 : (input.role == some Role.PATIENT || input.role == none) = true := by
      rcases hrole with h | h <;> simp [h]
    have hreg : register db input uid nuhid now = .ok
        { db with
          users := db.users ++ [{ id := uid, email := input.email, role := input.role.getD .PATIENT }],
          patients := db.patients ++ [{
            uhid := nuhid, userId := some uid, firstName := input.firstName,
            lastName := input.lastName, phone := input.phone.getD "",
            email := some input.email, createdAt := now }] } := by
      by_cases hcrit : (input.email != "" || optStrTruthy input.phone) = true
      · simp only [register, huser, Option.isSome_none, Bool.false_eq_true, if_false,
          hrole2, if_true, hcrit, hfind]
      · simp only [register, huser, Option.isSome_none, Bool.false_eq_true, if_false,
          hrole2, if_true, hcrit]
    exact ⟨_, hreg, rfl, by simp⟩
  · intro db input uid guid now e orphan hin hne huser hfind hnodup
    have hmem := List.mem_of_find?_eq_some hfind
    have hcp : createPatient db input uid guid now = .ok
        ({ db with
           users := db.users ++ [{ id := uid, email := e, role := .PATIENT }],
           patients := db.patients.map (fun p =>
             if p.uhid == orphan.uhid then { p with userId := some uid } else p) },
         { orphan with userId := some uid }) := by
      simp only [createPatient, hin, if_neg hne, huser, Option.isSome_none,
        Bool.false_eq_true, if_false, hfind]
    refine ⟨_, _, hcp, rfl, by simp, ?_, ?_⟩
    · rw [List.map_map]
      apply List.map_congr_left
      intro a _
      simp only [Function.comp_apply]
      split <;> rfl
    · intro q hq hquhid
      obtain ⟨p0, hp0, rfl⟩ := List.mem_map.mp hq
      by_cases hb : (p0.uhid == orphan.uhid) = true
      · have hpe : p0 = orphan :=
          List.inj_on_of_nodup_map hnodup hp0 hmem (beq_iff_eq.mp hb)
        subst hpe
        simp
      · exfalso
        rw [if_neg hb] at hquhid
        exact hb (beq_iff_eq.mpr hquhid)
  · intro db input uid guid now e hin hne huser hfind huhid
    have hcp : createPatient db input uid guid now = .ok
        ({ db with
           users := db.users ++ [{ id := uid, email := e, role := .PATIENT }],
           patients := db.patients ++ [{
             uhid := guid, userId := some uid, firstName := input.firstName,
             lastName := input.lastName, phone := input.phone, email := some e,
             createdAt := now }] },
         { uhid := guid, userId := some uid, firstName := input.firstName,
           lastName := input.lastName, phone := input.phone, email := some e,
           createdAt := now }) := by
      simp only [createPatient, hin, if_neg hne, huser, Option.isSome_none,
        Bool.false_eq_true, if_false, hfind, jsOrStr, huhid]
    exact ⟨_, _, hcp, rfl, rfl⟩

/-- C5 witness: all four branches instantiated concretely: the two
orphan-link branches over `orphanStore` (whose orphan matches by phone)
and the two creation branches over `freshStore` (no orphan matches). -/
theorem C5_witness :
    (∃ db2, register orphanStore orphanRegInput "u1" "h1" 7 = .ok db2 ∧
      db2.patients.length = orphanStore.patients.length ∧
      db2.patients.map Patient.uhid = orphanStore.patients.map Patient.uhid ∧
      ∀ q ∈ db2.patients, q.uhid = "o" →
        q = { uhid := "o", userId := some "u1", firstName := "Ram", lastName := "K",
              phone := "9000000001", email := some "a@x.com", createdAt := 0 }) ∧
    (∃ db2, register freshStore freshRegInput "u2" "h2" 8 = .ok db2 ∧
      db2.patients = freshStore.patients ++ [{
        uhid := "h2", userId := some "u2", firstName := "N", lastName := "E",
        phone := "6", email := some "n@x.com", createdAt := 8 }] ∧
      db2.patients.length = freshStore.patients.length + 1) ∧
    (∃ db2 ret, createPatient orphanStore orphanInput "u3" "h3" 9 = .ok (db2, ret) ∧
      ret = { uhid := "o", userId := some "u3", firstName := "Ram", lastName := "K",
              phone := "9000000001", email := none, createdAt := 0 } ∧
      db2.patients.length = orphanStore.patients.length ∧
      db2.patients.map Patient.uhid = orphanStore.patients.map Patient.uhid ∧
      ∀ q ∈ db2.patients, q.uhid = "o" →
        q = { uhid := "o", userId := some "u3", firstName := "Ram", lastName := "K",
              phone := "9000000001", email := none, createdAt := 0 }) ∧
    (∃ db2 ret, createPatient freshStore freshInput "u4" "h4" 11 = .ok (db2, ret) ∧
      ret = { uhid := "h4", userId := some "u4", firstName := "N", lastName := "E",
              phone := "6", email := some "n@x.com", createdAt := 11 } ∧
      db2.patients = freshStore.patients ++ [ret]) := by
  refine ⟨?_, ?_, ?_, ?_⟩
  · exact C5_link_or_create.1 orphanStore orphanRegInput "u1" "h1" 7
      ⟨"o", none, "Ram", "K", "9000000001", none, 0⟩ (by decide) (Or.inr rfl)
      (by decide) (by decide)
  · exact C5_link_or_create.2.1 freshStore freshRegInput "u2" "h2" 8 (by decide)
      (Or.inr rfl) (by decide)
  · exact C5_link_or_create.2.2.1 orphanStore orphanInput "u3" "h3" 9 "a@x.com"
      ⟨"o", none, "Ram", "K", "9000000001", none, 0⟩ rfl (by decide) (by decide)
      (by decide) (by decide)
  · exact C5_link_or_create.2.2.2 freshStore freshInput "u4" "h4" 11 "n@x.com" rfl
      (by decide) (by decide) (by decide) rfl

end HospitalCore
